import Mathlib

/-!
Verification of the key-value line codec in
src/git-credentials/src/helper/context.rs.

Bytes are modelled as natural numbers and byte strings as lists of
naturals.  Numeric literals are ASCII codes: 61 is the equals sign,
10 is the line feed, 0 is the null byte, 13 is the carriage return.
Rust strings (keys, text-field values) are modelled at the byte level
as well; UTF-8 validity, which the Rust type system guarantees for
String values, becomes an explicit predicate.
-/

/-- Bytes of the ASCII string "url". -/
def keyUrl : List Nat := [117, 114, 108]

/-- Bytes of the ASCII string "path". -/
def keyPath : List Nat := [112, 97, 116, 104]

/-- Bytes of the ASCII string "protocol". -/
def keyProtocol : List Nat := [112, 114, 111, 116, 111, 99, 111, 108]

/-- Bytes of the ASCII string "host". -/
def keyHost : List Nat := [104, 111, 115, 116]

/-- Bytes of the ASCII string "username". -/
def keyUsername : List Nat := [117, 115, 101, 114, 110, 97, 109, 101]

/-- Bytes of the ASCII string "password". -/
def keyPassword : List Nat := [112, 97, 115, 115, 119, 111, 114, 100]

/-- Bytes of the ASCII string "quit". -/
def keyQuit : List Nat := [113, 117, 105, 116]

/-- Bytes of the ASCII string "true". -/
def asciiTrue : List Nat := [116, 114, 117, 101]

/-- Bytes of the ASCII string "false". -/
def asciiFalse : List Nat := [102, 97, 108, 115, 101]

/-- Bytes of the ASCII string "yes". -/
def asciiYes : List Nat := [121, 101, 115]

/-- Bytes of the ASCII string "on". -/
def asciiOn : List Nat := [111, 110]

/-- Bytes of the ASCII string "no". -/
def asciiNo : List Nat := [110, 111]

/-- Bytes of the ASCII string "off". -/
def asciiOff : List Nat := [111, 102, 102]

/-- Membership test for a byte in a byte string; models the
slice/str contains calls used by validate in the source. -/
def hasByte : List Nat → Nat → Bool
  | [], _ => false
  | a :: rest, b => if a = b then true else hasByte rest b

/-- Continuation byte of a UTF-8 sequence: 0x80 to 0xBF. -/
def isCont (b : Nat) : Bool := decide (128 ≤ b ∧ b ≤ 191)

/-- UTF-8 validity of a byte string, following the standard table
(RFC 3629: no overlong encodings, no surrogates, at most U+10FFFF);
models the checks done by bstr to_str and is_utf8 in the source. -/
def isUtf8 : List Nat → Bool
  | [] => true
  | b0 :: rest =>
    if b0 ≤ 127 then isUtf8 rest
    else
      match rest with
      | [] => false
      | b1 :: rest1 =>
        if 194 ≤ b0 ∧ b0 ≤ 223 then isCont b1 && isUtf8 rest1
        else
          match rest1 with
          | [] => false
          | b2 :: rest2 =>
            if b0 = 224 then decide (160 ≤ b1 ∧ b1 ≤ 191) && isCont b2 && isUtf8 rest2
            else if (225 ≤ b0 ∧ b0 ≤ 236) ∨ b0 = 238 ∨ b0 = 239 then
              isCont b1 && isCont b2 && isUtf8 rest2
            else if b0 = 237 then decide (128 ≤ b1 ∧ b1 ≤ 159) && isCont b2 && isUtf8 rest2
            else
              match rest2 with
              | [] => false
              | b3 :: rest3 =>
                if b0 = 240 then
                  decide (144 ≤ b1 ∧ b1 ≤ 191) && isCont b2 && isCont b3 && isUtf8 rest3
                else if 241 ≤ b0 ∧ b0 ≤ 243 then
                  isCont b1 && isCont b2 && isCont b3 && isUtf8 rest3
                else if b0 = 244 then
                  decide (128 ≤ b1 ∧ b1 ≤ 143) && isCont b2 && isCont b3 && isUtf8 rest3
                else false

/-- ASCII lower-casing of one byte, for case-insensitive comparison. -/
def toLowerAscii (b : Nat) : Nat := if 65 ≤ b ∧ b ≤ 90 then b + 32 else b

/-- Models eq_ignore_ascii_case on byte strings. -/
def eqIgnoreAsciiCase (a b : List Nat) : Bool :=
  decide (a.map toLowerAscii = b.map toLowerAscii)

/-- Models parse_true from the source (copied there from
git-config value boolean handling). -/
def parse_true (v : List Nat) : Bool :=
  eqIgnoreAsciiCase v asciiYes || eqIgnoreAsciiCase v asciiOn || eqIgnoreAsciiCase v asciiTrue

/-- Models parse_false from the source: the recognized false tokens,
or the empty value. -/
def parse_false (v : List Nat) : Bool :=
  eqIgnoreAsciiCase v asciiNo || eqIgnoreAsciiCase v asciiOff ||
    eqIgnoreAsciiCase v asciiFalse || v.isEmpty

/-- The encoding error of helper context serialization; corresponds to
the Error enum with its single Encoding variant carrying key and value. -/
inductive CtxError where
  | encoding (key : List Nat) (value : List Nat)
deriving DecidableEq

/-- Models the validate function: a key or value containing a null
byte or a line feed cannot be encoded. -/
def validate (key value : List Nat) : Except CtxError Unit :=
  if (hasByte key 0 || hasByte key 10 || hasByte value 0 || hasByte value 10) = true then
    Except.error (CtxError.encoding key value)
  else Except.ok ()

/-- The credential context record.  Modelled from the spec: the Context
struct itself is declared outside the file under verification (in the
helper module); per the spec it is a record of seven optional fields,
where url and path are byte strings and protocol, host, username and
password are UTF-8 text (held here as bytes, with UTF-8 validity made
an explicit predicate). -/
structure Context where
  url : Option (List Nat)
  path : Option (List Nat)
  protocol : Option (List Nat)
  host : Option (List Nat)
  username : Option (List Nat)
  password : Option (List Nat)
  quit : Option Bool
deriving DecidableEq

/-- Context default value: every field unset. -/
def Context.default : Context := ⟨none, none, none, none, none, none, none⟩

/-- Serialization of the quit flag, as in write_to: the literal bytes
of "true" or "false". -/
def quitBytes (b : Bool) : List Nat := if b then asciiTrue else asciiFalse

/-- One step of write_to for an optional byte-string field: an absent
field writes nothing; a present field is validated and then written as
key, equals sign, value, line feed.  The state is the sink content so
far paired with the error, if one has occurred (in which case nothing
further is written, matching the early return in the source). -/
def writeOpt : List Nat × Option CtxError → List Nat → Option (List Nat) →
    List Nat × Option CtxError
  | (out, some e), _, _ => (out, some e)
  | (out, none), _, none => (out, none)
  | (out, none), key, some value =>
    match validate key value with
    | Except.error e => (out, some e)
    | Except.ok _ => (out ++ (key ++ 61 :: value ++ [10]), none)

/-- The final step of write_to: the quit flag, when set, is written as
quit=true or quit=false with no validation (the source calls write_key
directly for it). -/
def writeQuit : List Nat × Option CtxError → Option Bool → List Nat × Option CtxError
  | (out, some e), _ => (out, some e)
  | (out, none), none => (out, none)
  | (out, none), some q => (out ++ (keyQuit ++ 61 :: quitBytes q ++ [10]), none)

/-- Models Context::write_to.  The first component is the content of the
output sink (everything written before any failure); the second is the
validation error, if any.  The field order is that of the source: the
two byte-string fields url and path, then the four text fields protocol,
host, username and password, then quit. -/
def Context.write_to (ctx : Context) : List Nat × Option CtxError :=
  writeQuit
    (writeOpt
      (writeOpt
        (writeOpt
          (writeOpt
            (writeOpt
              (writeOpt ([], none) keyUrl ctx.url)
              keyPath ctx.path)
            keyProtocol ctx.protocol)
          keyHost ctx.host)
        keyUsername ctx.username)
      keyPassword ctx.password)
    ctx.quit

/-- The decode error enum of from_bytes.  The invalidFormat variant
corresponds to the Syntax variant of the source (a line without an
equals sign, or with a key that is not valid UTF-8). -/
inductive DecodeError where
  | illformedUtf8InValue (key : List Nat) (value : List Nat)
  | encoding (e : CtxError)
  | invalidFormat (line : List Nat)
deriving DecidableEq

/-- Models splitn(2, equals-sign) as used in from_bytes: the part of
the line before the first 61 byte and the part after it, or none when
the line has no 61 byte (in which case the splitn iterator yields a
single piece and the second next() call returns None). -/
def splitEq : List Nat → Option (List Nat × List Nat)
  | [] => none
  | b :: rest =>
    if b = 61 then some ([], rest)
    else
      match splitEq rest with
      | some (k, v) => some (b :: k, v)
      | none => none

/-- Models the per-line closure in from_bytes: split the line at the
first equals sign, require the key to be valid UTF-8 (otherwise a
format error carrying the whole line), then validate the pair. -/
def parseLine (line : List Nat) : Except DecodeError (List Nat × List Nat) :=
  match splitEq line with
  | none => Except.error (DecodeError.invalidFormat line)
  | some (k, v) =>
    if isUtf8 k = true then
      match validate k v with
      | Except.ok _ => Except.ok (k, v)
      | Except.error e => Except.error (DecodeError.encoding e)
    else Except.error (DecodeError.invalidFormat line)

/-- Models the dispatch on the key inside the from_bytes loop: the four
text fields require a UTF-8 value, url and path store raw bytes, quit is
resolved through parse_true and parse_false, and any other key is
silently ignored. -/
def applyLine (ctx : Context) (key value : List Nat) : Except DecodeError Context :=
  if key = keyProtocol ∨ key = keyHost ∨ key = keyUsername ∨ key = keyPassword then
    if isUtf8 value = true then
      Except.ok
        (if key = keyProtocol then { ctx with protocol := some value }
         else if key = keyHost then { ctx with host := some value }
         else if key = keyUsername then { ctx with username := some value }
         else { ctx with password := some value })
    else Except.error (DecodeError.illformedUtf8InValue key value)
  else if key = keyUrl then Except.ok { ctx with url := some value }
  else if key = keyPath then Except.ok { ctx with path := some value }
  else if key = keyQuit then
    Except.ok { ctx with quit := some (if parse_true value = true then true else !parse_false value) }
  else Except.ok ctx

/-- The for loop of from_bytes over the already-selected lines: parse
each line, dispatch it, and stop with the first error. -/
def runLines : Context → List (List Nat) → Except DecodeError Context
  | ctx, [] => Except.ok ctx
  | ctx, line :: rest =>
    match parseLine line with
    | Except.error e => Except.error e
    | Except.ok (k, v) =>
      match applyLine ctx k v with
      | Except.error e => Except.error e
      | Except.ok ctx2 => runLines ctx2 rest

/-- Modelled from the spec: the line iterator used by from_bytes is the
bstr lines iterator, a dependency whose source is not part of this
repository.  Per spec section 4.3 the input is split into lines on
line-feed bytes, each line yielded without its terminator, and a
trailing line feed does not produce a final empty line. -/
def bstrLines : List Nat → List (List Nat)
  | [] => []
  | b :: rest =>
    if b = 10 then [] :: bstrLines rest
    else
      match bstrLines rest with
      | [] => [[b]]
      | l :: ls => (b :: l) :: ls

/-- The decoding pipeline of from_bytes starting from an arbitrary
accumulator context: split into lines, keep lines up to the first empty
one, and run the loop. -/
def decodeTail (ctx : Context) (input : List Nat) : Except DecodeError Context :=
  runLines ctx ((bstrLines input).takeWhile (fun line => !line.isEmpty))

/-- Models Context::from_bytes: the pipeline applied to the default
(empty) context, as in the source. -/
def Context.from_bytes (input : List Nat) : Except DecodeError Context :=
  decodeTail Context.default input

/-- A present value is free of null bytes and line feeds (the condition
checked by validate); an absent value is unconstrained. -/
def optValOk : Option (List Nat) → Bool
  | none => true
  | some v => !hasByte v 0 && !hasByte v 10

/-- A present value is valid UTF-8; an absent value is unconstrained. -/
def optTextOk : Option (List Nat) → Bool
  | none => true
  | some v => isUtf8 v

/-- All present field values of a context pass validate. -/
def Context.valuesOk (ctx : Context) : Bool :=
  optValOk ctx.url && optValOk ctx.path && optValOk ctx.protocol &&
    optValOk ctx.host && optValOk ctx.username && optValOk ctx.password

/-- A context is legal when all present values pass validate and the
four text fields, when present, hold valid UTF-8 (which the Rust String
type guarantees by construction). -/
def Context.legal (ctx : Context) : Bool :=
  ctx.valuesOk && optTextOk ctx.protocol && optTextOk ctx.host &&
    optTextOk ctx.username && optTextOk ctx.password

/-- A present value containing a null byte or a line feed. -/
def offendingOpt : Option (List Nat) → Bool
  | none => false
  | some v => hasByte v 0 || hasByte v 10

/-- Some present field value of the context contains a null byte or a
line feed, so that write_to must fail. -/
def Context.hasOffending (ctx : Context) : Bool :=
  offendingOpt ctx.url || offendingOpt ctx.path || offendingOpt ctx.protocol ||
    offendingOpt ctx.host || offendingOpt ctx.username || offendingOpt ctx.password

/-- The wire line of one optional field: nothing for an absent field,
a single line of key, equals sign, value, line feed for a present one. -/
def optWire (k : List Nat) : Option (List Nat) → List (List Nat)
  | none => []
  | some v => [k ++ 61 :: v ++ [10]]

/-- Concatenation of a list of byte strings. -/
def joinLines : List (List Nat) → List Nat
  | [] => []
  | l :: ls => l ++ joinLines ls

/-- The list of wire lines a context should produce: one line per
present field, in the fixed order url, path, protocol, host, username,
password, quit, with quit serialized as the literal text true or false. -/
def Context.wireLineList (ctx : Context) : List (List Nat) :=
  optWire keyUrl ctx.url ++ (optWire keyPath ctx.path ++
    (optWire keyProtocol ctx.protocol ++ (optWire keyHost ctx.host ++
      (optWire keyUsername ctx.username ++ (optWire keyPassword ctx.password ++
        optWire keyQuit (ctx.quit.map quitBytes))))))

/-- Override: the first option when present, otherwise the second.
Describes the effect of decoding one field line onto an accumulator. -/
def ovr {α : Type} : Option α → Option α → Option α
  | some v, _ => some v
  | none, old => old

/-- The seven keys the decoder recognizes. -/
def recognizedKeys : List (List Nat) :=
  [keyUrl, keyPath, keyProtocol, keyHost, keyUsername, keyPassword, keyQuit]

/-- The three-way classification of quit values as the specification
states it: a value case-insensitively equal to one of the recognized
true tokens gives true, a value case-insensitively equal to one of the
recognized false tokens or empty gives false, and every other value
gives true. -/
def quitResolve (v : List Nat) : Bool :=
  if (eqIgnoreAsciiCase v asciiYes || eqIgnoreAsciiCase v asciiOn ||
      eqIgnoreAsciiCase v asciiTrue) = true then true
  else if (eqIgnoreAsciiCase v asciiNo || eqIgnoreAsciiCase v asciiOff ||
      eqIgnoreAsciiCase v asciiFalse || v.isEmpty) = true then false
  else true

/-! Basic facts about byte search, key splitting and line parsing. -/

theorem hasByte_cons_elim {a b : Nat} {l : List Nat} (h : hasByte (a :: l) b = false) :
    a ≠ b ∧ hasByte l b = false := by
  by_cases hab : a = b
  · simp [hasByte, hab] at h
  · simp only [hasByte, if_neg hab] at h
    exact ⟨hab, h⟩

theorem hasByte_append (a b : List Nat) (x : Nat) :
    hasByte (a ++ b) x = (hasByte a x || hasByte b x) := by
  induction a with
  | nil => simp [hasByte]
  | cons y ys ih => by_cases hy : y = x <;> simp [hasByte, hy, ih]

theorem optValOk_some {v : List Nat} (h : optValOk (some v) = true) :
    hasByte v 0 = false ∧ hasByte v 10 = false := by
  simp only [optValOk, Bool.and_eq_true, Bool.not_eq_true'] at h
  exact h

theorem optTextOk_some {v : List Nat} (h : optTextOk (some v) = true) : isUtf8 v = true := by
  simpa [optTextOk] using h

theorem splitEq_key (k v : List Nat) (h : hasByte k 61 = false) :
    splitEq (k ++ 61 :: v) = some (k, v) := by
  induction k with
  | nil => simp [splitEq]
  | cons b bs ih =>
    obtain ⟨hb, hbs⟩ := hasByte_cons_elim h
    simp [splitEq, hb, ih hbs]

theorem splitEq_none (l : List Nat) (h : hasByte l 61 = false) : splitEq l = none := by
  induction l with
  | nil => rfl
  | cons b bs ih =>
    obtain ⟨hb, hbs⟩ := hasByte_cons_elim h
    simp [splitEq, hb, ih hbs]

theorem parseLine_ok (k v : List Nat) (hk61 : hasByte k 61 = false) (hku : isUtf8 k = true)
    (hk0 : hasByte k 0 = false) (hk10 : hasByte k 10 = false)
    (hv0 : hasByte v 0 = false) (hv10 : hasByte v 10 = false) :
    parseLine (k ++ 61 :: v) = Except.ok (k, v) := by
  simp [parseLine, splitEq_key k v hk61, hku, validate, hk0, hk10, hv0, hv10]

theorem parseLine_validate_err (k v : List Nat) (hk61 : hasByte k 61 = false)
    (hku : isUtf8 k = true)
    (hcond : (hasByte k 0 || hasByte k 10 || hasByte v 0 || hasByte v 10) = true) :
    parseLine (k ++ 61 :: v) = Except.error (DecodeError.encoding (CtxError.encoding k v)) := by
  simp [parseLine, splitEq_key k v hk61, hku, validate, hcond]

theorem parseLine_noEq (line : List Nat) (h : hasByte line 61 = false) :
    parseLine line = Except.error (DecodeError.invalidFormat line) := by
  simp [parseLine, splitEq_none line h]

theorem parseLine_badKey (line k v : List Nat) (hs : splitEq line = some (k, v))
    (hk : isUtf8 k = false) :
    parseLine line = Except.error (DecodeError.invalidFormat line) := by
  simp [parseLine, hs, hk]

/-! Dispatch facts: the effect of applyLine for each concrete key. -/

theorem applyLine_url (c : Context) (v : List Nat) :
    applyLine c keyUrl v = Except.ok { c with url := some v } := by
  simp [applyLine, keyUrl, keyPath, keyProtocol, keyHost, keyUsername, keyPassword, keyQuit]

theorem applyLine_path (c : Context) (v : List Nat) :
    applyLine c keyPath v = Except.ok { c with path := some v } := by
  simp [applyLine, keyUrl, keyPath, keyProtocol, keyHost, keyUsername, keyPassword, keyQuit]

theorem applyLine_protocol (c : Context) (v : List Nat) (hu : isUtf8 v = true) :
    applyLine c keyProtocol v = Except.ok { c with protocol := some v } := by
  simp [applyLine, hu, keyUrl, keyPath, keyProtocol, keyHost, keyUsername, keyPassword, keyQuit]

theorem applyLine_host (c : Context) (v : List Nat) (hu : isUtf8 v = true) :
    applyLine c keyHost v = Except.ok { c with host := some v } := by
  simp [applyLine, hu, keyUrl, keyPath, keyProtocol, keyHost, keyUsername, keyPassword, keyQuit]

theorem applyLine_username (c : Context) (v : List Nat) (hu : isUtf8 v = true) :
    applyLine c keyUsername v = Except.ok { c with username := some v } := by
  simp [applyLine, hu, keyUrl, keyPath, keyProtocol, keyHost, keyUsername, keyPassword, keyQuit]

theorem applyLine_password (c : Context) (v : List Nat) (hu : isUtf8 v = true) :
    applyLine c keyPassword v = Except.ok { c with password := some v } := by
  simp [applyLine, hu, keyUrl, keyPath, keyProtocol, keyHost, keyUsername, keyPassword, keyQuit]

theorem applyLine_protocol_bad (c : Context) (v : List Nat) (hu : isUtf8 v = false) :
    applyLine c keyProtocol v = Except.error (DecodeError.illformedUtf8InValue keyProtocol v) := by
  simp [applyLine, hu, keyUrl, keyPath, keyProtocol, keyHost, keyUsername, keyPassword, keyQuit]

theorem applyLine_host_bad (c : Context) (v : List Nat) (hu : isUtf8 v = false) :
    applyLine c keyHost v = Except.error (DecodeError.illformedUtf8InValue keyHost v) := by
  simp [applyLine, hu, keyUrl, keyPath, keyProtocol, keyHost, keyUsername, keyPassword, keyQuit]

theorem applyLine_username_bad (c : Context) (v : List Nat) (hu : isUtf8 v = false) :
    applyLine c keyUsername v =
      Except.error (DecodeError.illformedUtf8InValue keyUsername v) := by
  simp [applyLine, hu, keyUrl, keyPath, keyProtocol, keyHost, keyUsername, keyPassword, keyQuit]

theorem applyLine_password_bad (c : Context) (v : List Nat) (hu : isUtf8 v = false) :
    applyLine c keyPassword v =
      Except.error (DecodeError.illformedUtf8InValue keyPassword v) := by
  simp [applyLine, hu, keyUrl, keyPath, keyProtocol, keyHost, keyUsername, keyPassword, keyQuit]

theorem applyLine_quit (c : Context) (v : List Nat) :
    applyLine c keyQuit v =
      Except.ok { c with quit := some (if parse_true v = true then true else !parse_false v) } := by
  simp [applyLine, keyUrl, keyPath, keyProtocol, keyHost, keyUsername, keyPassword, keyQuit]

theorem applyLine_unknown (c : Context) (k v : List Nat) (h : k ∉ recognizedKeys) :
    applyLine c k v = Except.ok c := by
  simp only [recognizedKeys, List.mem_cons, List.not_mem_nil, or_false, not_or] at h
  obtain ⟨n1, n2, n3, n4, n5, n6, n7⟩ := h
  simp [applyLine, n1, n2, n3, n4, n5, n6, n7]

/-! Facts about the loop over lines. -/

theorem runLines_step {c c2 : Context} {k v line : List Nat} (rest : List (List Nat))
    (hp : parseLine line = Except.ok (k, v)) (ha : applyLine c k v = Except.ok c2) :
    runLines c (line :: rest) = runLines c2 rest := by
  simp only [runLines, hp, ha]

theorem runLines_parse_err {c : Context} {line : List Nat} {e : DecodeError}
    (rest : List (List Nat)) (hp : parseLine line = Except.error e) :
    runLines c (line :: rest) = Except.error e := by
  simp only [runLines, hp]

theorem runLines_apply_err {c : Context} {k v line : List Nat} {e : DecodeError}
    (rest : List (List Nat)) (hp : parseLine line = Except.ok (k, v))
    (ha : applyLine c k v = Except.error e) :
    runLines c (line :: rest) = Except.error e := by
  simp only [runLines, hp, ha]

/-! Facts about line splitting. -/

theorem bstrLines_append (l rest : List Nat) (h : hasByte l 10 = false) :
    bstrLines (l ++ 10 :: rest) = l :: bstrLines rest := by
  induction l with
  | nil => simp [bstrLines]
  | cons b bs ih =>
    obtain ⟨hb, hbs⟩ := hasByte_cons_elim h
    simp [bstrLines, hb, ih hbs]

theorem bstrLines_cons_ne_nil (b : Nat) (l : List Nat) : bstrLines (b :: l) ≠ [] := by
  by_cases hb : b = 10
  · simp [bstrLines, hb]
  · rcases h : bstrLines l with - | ⟨x, xs⟩ <;> simp [bstrLines, hb, h]

theorem bstrLines_split (X Y : List Nat) :
    bstrLines (X ++ 10 :: Y) = bstrLines (X ++ [10]) ++ bstrLines Y := by
  induction X with
  | nil => simp [bstrLines]
  | cons b bs ih =>
    by_cases hb : b = 10
    · subst hb
      simp only [List.cons_append]
      simp [bstrLines, ih]
    · simp only [List.cons_append]
      rcases h : bstrLines (bs ++ [10]) with - | ⟨x, xs⟩
      · exact absurd h (by cases bs <;> exact bstrLines_cons_ne_nil _ _)
      · simp [bstrLines, hb, ih, h]

theorem takeWhile_pos {α : Type} (p : α → Bool) (a : α) (l : List α) (h : p a = true) :
    List.takeWhile p (a :: l) = a :: List.takeWhile p l := by
  simp [List.takeWhile, h]

theorem takeWhile_stop {α : Type} (p : α → Bool) (A : List α) (x : α) (B : List α)
    (hx : p x = false) :
    List.takeWhile p (A ++ x :: B) = List.takeWhile p A := by
  induction A with
  | nil => simp [List.takeWhile, hx]
  | cons a as ih => cases ha : p a <;> simp [List.takeWhile, ha, ih]

theorem line_isEmpty (k v : List Nat) : (k ++ 61 :: v).isEmpty = false := by
  cases k <;> rfl

/-! Facts about the decoding pipeline, one wire line at a time. -/

theorem decodeTail_nil (c : Context) : decodeTail c [] = Except.ok c := rfl

theorem decodeTail_cons (c : Context) (k v B : List Nat)
    (hk10 : hasByte k 10 = false) (hv10 : hasByte v 10 = false) :
    decodeTail c (k ++ 61 :: v ++ 10 :: B) =
      runLines c ((k ++ 61 :: v) :: (bstrLines B).takeWhile (fun line => !line.isEmpty)) := by
  have h10 : hasByte (k ++ 61 :: v) 10 = false := by
    simp [hasByte_append, hasByte, hv10, hk10]
  have hsplit : bstrLines (k ++ 61 :: v ++ 10 :: B) = (k ++ 61 :: v) :: bstrLines B := by
    simpa [List.append_assoc] using bstrLines_append (k ++ 61 :: v) B h10
  have hpos := takeWhile_pos (fun line => !line.isEmpty) (k ++ 61 :: v) (bstrLines B)
    (by simp [line_isEmpty])
  simp only [decodeTail, hsplit, hpos]

theorem decodeTail_line {c c2 : Context} (k v B : List Nat)
    (hk10 : hasByte k 10 = false) (hv10 : hasByte v 10 = false)
    (hp : parseLine (k ++ 61 :: v) = Except.ok (k, v))
    (ha : applyLine c k v = Except.ok c2) :
    decodeTail c (k ++ 61 :: v ++ 10 :: B) = decodeTail c2 B := by
  rw [decodeTail_cons c k v B hk10 hv10]
  exact runLines_step _ hp ha

theorem decodeTail_url (c : Context) (v B : List Nat)
    (h0 : hasByte v 0 = false) (h10 : hasByte v 10 = false) :
    decodeTail c (keyUrl ++ 61 :: v ++ 10 :: B) = decodeTail { c with url := some v } B :=
  decodeTail_line keyUrl v B (by decide) h10
    (parseLine_ok keyUrl v (by decide) (by decide) (by decide) (by decide) h0 h10)
    (applyLine_url c v)

theorem decodeTail_path (c : Context) (v B : List Nat)
    (h0 : hasByte v 0 = false) (h10 : hasByte v 10 = false) :
    decodeTail c (keyPath ++ 61 :: v ++ 10 :: B) = decodeTail { c with path := some v } B :=
  decodeTail_line keyPath v B (by decide) h10
    (parseLine_ok keyPath v (by decide) (by decide) (by decide) (by decide) h0 h10)
    (applyLine_path c v)

theorem decodeTail_protocol (c : Context) (v B : List Nat)
    (h0 : hasByte v 0 = false) (h10 : hasByte v 10 = false) (hu : isUtf8 v = true) :
    decodeTail c (keyProtocol ++ 61 :: v ++ 10 :: B) =
      decodeTail { c with protocol := some v } B :=
  decodeTail_line keyProtocol v B (by decide) h10
    (parseLine_ok keyProtocol v (by decide) (by decide) (by decide) (by decide) h0 h10)
    (applyLine_protocol c v hu)

theorem decodeTail_host (c : Context) (v B : List Nat)
    (h0 : hasByte v 0 = false) (h10 : hasByte v 10 = false) (hu : isUtf8 v = true) :
    decodeTail c (keyHost ++ 61 :: v ++ 10 :: B) = decodeTail { c with host := some v } B :=
  decodeTail_line keyHost v B (by decide) h10
    (parseLine_ok keyHost v (by decide) (by decide) (by decide) (by decide) h0 h10)
    (applyLine_host c v hu)

theorem decodeTail_username (c : Context) (v B : List Nat)
    (h0 : hasByte v 0 = false) (h10 : hasByte v 10 = false) (hu : isUtf8 v = true) :
    decodeTail c (keyUsername ++ 61 :: v ++ 10 :: B) =
      decodeTail { c with username := some v } B :=
  decodeTail_line keyUsername v B (by decide) h10
    (parseLine_ok keyUsername v (by decide) (by decide) (by decide) (by decide) h0 h10)
    (applyLine_username c v hu)

theorem decodeTail_password (c : Context) (v B : List Nat)
    (h0 : hasByte v 0 = false) (h10 : hasByte v 10 = false) (hu : isUtf8 v = true) :
    decodeTail c (keyPassword ++ 61 :: v ++ 10 :: B) =
      decodeTail { c with password := some v } B :=
  decodeTail_line keyPassword v B (by decide) h10
    (parseLine_ok keyPassword v (by decide) (by decide) (by decide) (by decide) h0 h10)
    (applyLine_password c v hu)

theorem decodeTail_quitKey (c : Context) (v B : List Nat)
    (h0 : hasByte v 0 = false) (h10 : hasByte v 10 = false) :
    decodeTail c (keyQuit ++ 61 :: v ++ 10 :: B) =
      decodeTail
        { c with quit := some (if parse_true v = true then true else !parse_false v) } B :=
  decodeTail_line keyQuit v B (by decide) h10
    (parseLine_ok keyQuit v (by decide) (by decide) (by decide) (by decide) h0 h10)
    (applyLine_quit c v)

theorem decodeTail_unknown (c : Context) (k v B : List Nat) (hrec : k ∉ recognizedKeys)
    (hku : isUtf8 k = true) (hk61 : hasByte k 61 = false)
    (hk0 : hasByte k 0 = false) (hk10 : hasByte k 10 = false)
    (hv0 : hasByte v 0 = false) (hv10 : hasByte v 10 = false) :
    decodeTail c (k ++ 61 :: v ++ 10 :: B) = decodeTail c B :=
  decodeTail_line k v B hk10 hv10 (parseLine_ok k v hk61 hku hk0 hk10 hv0 hv10)
    (applyLine_unknown c k v hrec)

theorem decodeTail_validate_err (c : Context) (k v B : List Nat)
    (hk61 : hasByte k 61 = false) (hku : isUtf8 k = true)
    (hk10 : hasByte k 10 = false) (hv10 : hasByte v 10 = false)
    (hcond : (hasByte k 0 || hasByte k 10 || hasByte v 0 || hasByte v 10) = true) :
    decodeTail c (k ++ 61 :: v ++ 10 :: B) =
      Except.error (DecodeError.encoding (CtxError.encoding k v)) := by
  rw [decodeTail_cons c k v B hk10 hv10]
  exact runLines_parse_err _ (parseLine_validate_err k v hk61 hku hcond)

theorem decodeTail_protocol_err (c : Context) (v B : List Nat)
    (h0 : hasByte v 0 = false) (h10 : hasByte v 10 = false) (hu : isUtf8 v = false) :
    decodeTail c (keyProtocol ++ 61 :: v ++ 10 :: B) =
      Except.error (DecodeError.illformedUtf8InValue keyProtocol v) := by
  rw [decodeTail_cons c keyProtocol v B (by decide) h10]
  exact runLines_apply_err _
    (parseLine_ok keyProtocol v (by decide) (by decide) (by decide) (by decide) h0 h10)
    (applyLine_protocol_bad c v hu)

theorem decodeTail_host_err (c : Context) (v B : List Nat)
    (h0 : hasByte v 0 = false) (h10 : hasByte v 10 = false) (hu : isUtf8 v = false) :
    decodeTail c (keyHost ++ 61 :: v ++ 10 :: B) =
      Except.error (DecodeError.illformedUtf8InValue keyHost v) := by
  rw [decodeTail_cons c keyHost v B (by decide) h10]
  exact runLines_apply_err _
    (parseLine_ok keyHost v (by decide) (by decide) (by decide) (by decide) h0 h10)
    (applyLine_host_bad c v hu)

theorem decodeTail_username_err (c : Context) (v B : List Nat)
    (h0 : hasByte v 0 = false) (h10 : hasByte v 10 = false) (hu : isUtf8 v = false) :
    decodeTail c (keyUsername ++ 61 :: v ++ 10 :: B) =
      Except.error (DecodeError.illformedUtf8InValue keyUsername v) := by
  rw [decodeTail_cons c keyUsername v B (by decide) h10]
  exact runLines_apply_err _
    (parseLine_ok keyUsername v (by decide) (by decide) (by decide) (by decide) h0 h10)
    (applyLine_username_bad c v hu)

theorem decodeTail_password_err (c : Context) (v B : List Nat)
    (h0 : hasByte v 0 = false) (h10 : hasByte v 10 = false) (hu : isUtf8 v = false) :
    decodeTail c (keyPassword ++ 61 :: v ++ 10 :: B) =
      Except.error (DecodeError.illformedUtf8InValue keyPassword v) := by
  rw [decodeTail_cons c keyPassword v B (by decide) h10]
  exact runLines_apply_err _
    (parseLine_ok keyPassword v (by decide) (by decide) (by decide) (by decide) h0 h10)
    (applyLine_password_bad c v hu)

theorem decodeTail_bad_line (c : Context) (line B : List Nat)
    (hne : line.isEmpty = false) (h61 : hasByte line 61 = false) (h10 : hasByte line 10 = false) :
    decodeTail c (line ++ 10 :: B) = Except.error (DecodeError.invalidFormat line) := by
  simp only [decodeTail, bstrLines_append line B h10]
  have hpos := takeWhile_pos (fun l => !l.isEmpty) line (bstrLines B) (by simp [hne])
  rw [hpos]
  exact runLines_parse_err _ (parseLine_noEq line h61)

/-! Facts about the encoder steps. -/

theorem writeOpt_err (out : List Nat) (e : CtxError) (k : List Nat) (v : Option (List Nat)) :
    writeOpt (out, some e) k v = (out, some e) := rfl

theorem writeQuit_err (out : List Nat) (e : CtxError) (q : Option Bool) :
    writeQuit (out, some e) q = (out, some e) := rfl

theorem joinLines_append (A B : List (List Nat)) :
    joinLines (A ++ B) = joinLines A ++ joinLines B := by
  induction A with
  | nil => simp [joinLines]
  | cons a as ih => simp [joinLines, ih]

theorem writeOpt_ok (out k : List Nat) (v : Option (List Nat))
    (hk0 : hasByte k 0 = false) (hk10 : hasByte k 10 = false) (hv : optValOk v = true) :
    writeOpt (out, none) k v = (out ++ joinLines (optWire k v), none) := by
  rcases v with - | v
  · simp [writeOpt, optWire, joinLines]
  · obtain ⟨h0, h10⟩ := optValOk_some hv
    simp [writeOpt, optWire, joinLines, validate, hk0, hk10, h0, h10]

theorem writeOpt_some_err (out k v : List Nat)
    (hcond : (hasByte k 0 || hasByte k 10 || hasByte v 0 || hasByte v 10) = true) :
    writeOpt (out, none) k (some v) = (out, some (CtxError.encoding k v)) := by
  simp [writeOpt, validate, hcond]

theorem writeOpt_offending (st : List Nat × Option CtxError) (k : List Nat)
    (v : Option (List Nat)) (hv : offendingOpt v = true) :
    ((writeOpt st k v).2).isSome = true := by
  rcases st with ⟨out, err⟩
  rcases err with - | e
  · rcases v with - | v
    · simp [offendingOpt] at hv
    · simp only [offendingOpt] at hv
      rcases (by simpa using hv : hasByte v 0 = true ∨ hasByte v 10 = true) with h' | h' <;>
        simp [writeOpt, validate, h']
  · simp [writeOpt]

theorem writeOpt_keeps_err (st : List Nat × Option CtxError) (k : List Nat)
    (v : Option (List Nat)) (h : st.2.isSome = true) :
    ((writeOpt st k v).2).isSome = true := by
  rcases st with ⟨out, err⟩
  rcases err with - | e
  · simp at h
  · simp [writeOpt]

theorem writeQuit_keeps_err (st : List Nat × Option CtxError) (q : Option Bool)
    (h : st.2.isSome = true) : ((writeQuit st q).2).isSome = true := by
  rcases st with ⟨out, err⟩
  rcases err with - | e
  · simp at h
  · simp [writeQuit]

/-- The encoder on a context whose present values all pass validate
produces exactly the wire lines, in order, with no error. -/
theorem write_to_wire (ctx : Context) (h : ctx.valuesOk = true) :
    Context.write_to ctx = (joinLines ctx.wireLineList, none) := by
  obtain ⟨u, p, pr, ho, un, pw, q⟩ := ctx
  simp only [Context.valuesOk, Bool.and_eq_true] at h
  obtain ⟨⟨⟨⟨⟨h1, h2⟩, h3⟩, h4⟩, h5⟩, h6⟩ := h
  simp only [Context.write_to]
  rw [writeOpt_ok [] keyUrl u (by decide) (by decide) h1,
      writeOpt_ok _ keyPath p (by decide) (by decide) h2,
      writeOpt_ok _ keyProtocol pr (by decide) (by decide) h3,
      writeOpt_ok _ keyHost ho (by decide) (by decide) h4,
      writeOpt_ok _ keyUsername un (by decide) (by decide) h5,
      writeOpt_ok _ keyPassword pw (by decide) (by decide) h6]
  rcases q with - | b <;>
    simp [writeQuit, Context.wireLineList, joinLines_append, optWire, joinLines]

/-! Decoding the encoder output, one field at a time. -/

theorem quitBytes_round (b : Bool) :
    (if parse_true (quitBytes b) = true then true else !parse_false (quitBytes b)) = b := by
  cases b <;> decide

theorem ovr_none {α : Type} (o : Option α) : ovr o none = o := by
  cases o <;> rfl

theorem decode_quit (c : Context) (q : Option Bool) :
    decodeTail c (joinLines (optWire keyQuit (q.map quitBytes))) =
      Except.ok ⟨c.url, c.path, c.protocol, c.host, c.username, c.password, ovr q c.quit⟩ := by
  rcases q with - | b
  · rw [show joinLines (optWire keyQuit (Option.map quitBytes none)) = [] from rfl,
      decodeTail_nil]
    rfl
  · rw [show joinLines (optWire keyQuit (Option.map quitBytes (some b))) =
        keyQuit ++ 61 :: quitBytes b ++ 10 :: [] from by simp [optWire, joinLines],
      decodeTail_quitKey c (quitBytes b) [] (by cases b <;> decide) (by cases b <;> decide),
      decodeTail_nil, quitBytes_round]
    rfl

theorem decode_password (c : Context) (pw : Option (List Nat)) (q : Option Bool)
    (h6 : optValOk pw = true) (t6 : optTextOk pw = true) :
    decodeTail c (joinLines (optWire keyPassword pw ++ optWire keyQuit (q.map quitBytes))) =
      Except.ok ⟨c.url, c.path, c.protocol, c.host, c.username, ovr pw c.password,
        ovr q c.quit⟩ := by
  rcases pw with - | v
  · rw [show optWire keyPassword none ++ optWire keyQuit (q.map quitBytes) =
        optWire keyQuit (q.map quitBytes) from by simp [optWire],
      decode_quit c q]
    rfl
  · obtain ⟨h0, h10⟩ := optValOk_some h6
    have hu := optTextOk_some t6
    rw [show joinLines (optWire keyPassword (some v) ++ optWire keyQuit (q.map quitBytes)) =
        keyPassword ++ 61 :: v ++ 10 :: joinLines (optWire keyQuit (q.map quitBytes)) from by
          simp [optWire, joinLines],
      decodeTail_password c v _ h0 h10 hu, decode_quit _ q]
    rfl

theorem decode_username (c : Context) (un pw : Option (List Nat)) (q : Option Bool)
    (h5 : optValOk un = true) (t5 : optTextOk un = true)
    (h6 : optValOk pw = true) (t6 : optTextOk pw = true) :
    decodeTail c (joinLines (optWire keyUsername un ++
        (optWire keyPassword pw ++ optWire keyQuit (q.map quitBytes)))) =
      Except.ok ⟨c.url, c.path, c.protocol, c.host, ovr un c.username, ovr pw c.password,
        ovr q c.quit⟩ := by
  rcases un with - | v
  · rw [show optWire keyUsername none ++
          (optWire keyPassword pw ++ optWire keyQuit (q.map quitBytes)) =
        optWire keyPassword pw ++ optWire keyQuit (q.map quitBytes) from by simp [optWire],
      decode_password c pw q h6 t6]
    rfl
  · obtain ⟨h0, h10⟩ := optValOk_some h5
    have hu := optTextOk_some t5
    rw [show joinLines (optWire keyUsername (some v) ++
          (optWire keyPassword pw ++ optWire keyQuit (q.map quitBytes))) =
        keyUsername ++ 61 :: v ++ 10 ::
          joinLines (optWire keyPassword pw ++ optWire keyQuit (q.map quitBytes)) from by
          simp [optWire, joinLines],
      decodeTail_username c v _ h0 h10 hu, decode_password _ pw q h6 t6]
    rfl

theorem decode_host (c : Context) (ho un pw : Option (List Nat)) (q : Option Bool)
    (h4 : optValOk ho = true) (t4 : optTextOk ho = true)
    (h5 : optValOk un = true) (t5 : optTextOk un = true)
    (h6 : optValOk pw = true) (t6 : optTextOk pw = true) :
    decodeTail c (joinLines (optWire keyHost ho ++ (optWire keyUsername un ++
        (optWire keyPassword pw ++ optWire keyQuit (q.map quitBytes))))) =
      Except.ok ⟨c.url, c.path, c.protocol, ovr ho c.host, ovr un c.username,
        ovr pw c.password, ovr q c.quit⟩ := by
  rcases ho with - | v
  · rw [show optWire keyHost none ++ (optWire keyUsername un ++
          (optWire keyPassword pw ++ optWire keyQuit (q.map quitBytes))) =
        optWire keyUsername un ++
          (optWire keyPassword pw ++ optWire keyQuit (q.map quitBytes)) from by simp [optWire],
      decode_username c un pw q h5 t5 h6 t6]
    rfl
  · obtain ⟨h0, h10⟩ := optValOk_some h4
    have hu := optTextOk_some t4
    rw [show joinLines (optWire keyHost (some v) ++ (optWire keyUsername un ++
          (optWire keyPassword pw ++ optWire keyQuit (q.map quitBytes)))) =
        keyHost ++ 61 :: v ++ 10 :: joinLines (optWire keyUsername un ++
          (optWire keyPassword pw ++ optWire keyQuit (q.map quitBytes))) from by
          simp [optWire, joinLines],
      decodeTail_host c v _ h0 h10 hu, decode_username _ un pw q h5 t5 h6 t6]
    rfl

theorem decode_protocol (c : Context) (pr ho un pw : Option (List Nat)) (q : Option Bool)
    (h3 : optValOk pr = true) (t3 : optTextOk pr = true)
    (h4 : optValOk ho = true) (t4 : optTextOk ho = true)
    (h5 : optValOk un = true) (t5 : optTextOk un = true)
    (h6 : optValOk pw = true) (t6 : optTextOk pw = true) :
    decodeTail c (joinLines (optWire keyProtocol pr ++ (optWire keyHost ho ++
        (optWire keyUsername un ++
          (optWire keyPassword pw ++ optWire keyQuit (q.map quitBytes)))))) =
      Except.ok ⟨c.url, c.path, ovr pr c.protocol, ovr ho c.host, ovr un c.username,
        ovr pw c.password, ovr q c.quit⟩ := by
  rcases pr with - | v
  · rw [show optWire keyProtocol none ++ (optWire keyHost ho ++ (optWire keyUsername un ++
          (optWire keyPassword pw ++ optWire keyQuit (q.map quitBytes)))) =
        optWire keyHost ho ++ (optWire keyUsername un ++
          (optWire keyPassword pw ++ optWire keyQuit (q.map quitBytes))) from by simp [optWire],
      decode_host c ho un pw q h4 t4 h5 t5 h6 t6]
    rfl
  · obtain ⟨h0, h10⟩ := optValOk_some h3
    have hu := optTextOk_some t3
    rw [show joinLines (optWire keyProtocol (some v) ++ (optWire keyHost ho ++
          (optWire keyUsername un ++
            (optWire keyPassword pw ++ optWire keyQuit (q.map quitBytes))))) =
        keyProtocol ++ 61 :: v ++ 10 :: joinLines (optWire keyHost ho ++
          (optWire keyUsername un ++
            (optWire keyPassword pw ++ optWire keyQuit (q.map quitBytes)))) from by
          simp [optWire, joinLines],
      decodeTail_protocol c v _ h0 h10 hu, decode_host _ ho un pw q h4 t4 h5 t5 h6 t6]
    rfl

theorem decode_path (c : Context) (p pr ho un pw : Option (List Nat)) (q : Option Bool)
    (h2 : optValOk p = true)
    (h3 : optValOk pr = true) (t3 : optTextOk pr = true)
    (h4 : optValOk ho = true) (t4 : optTextOk ho = true)
    (h5 : optValOk un = true) (t5 : optTextOk un = true)
    (h6 : optValOk pw = true) (t6 : optTextOk pw = true) :
    decodeTail c (joinLines (optWire keyPath p ++ (optWire keyProtocol pr ++
        (optWire keyHost ho ++ (optWire keyUsername un ++
          (optWire keyPassword pw ++ optWire keyQuit (q.map quitBytes))))))) =
      Except.ok ⟨c.url, ovr p c.path, ovr pr c.protocol, ovr ho c.host, ovr un c.username,
        ovr pw c.password, ovr q c.quit⟩ := by
  rcases p with - | v
  · rw [show optWire keyPath none ++ (optWire keyProtocol pr ++ (optWire keyHost ho ++
          (optWire keyUsername un ++
            (optWire keyPassword pw ++ optWire keyQuit (q.map quitBytes))))) =
        optWire keyProtocol pr ++ (optWire keyHost ho ++ (optWire keyUsername un ++
          (optWire keyPassword pw ++ optWire keyQuit (q.map quitBytes)))) from by simp [optWire],
      decode_protocol c pr ho un pw q h3 t3 h4 t4 h5 t5 h6 t6]
    rfl
  · obtain ⟨h0, h10⟩ := optValOk_some h2
    rw [show joinLines (optWire keyPath (some v) ++ (optWire keyProtocol pr ++
          (optWire keyHost ho ++ (optWire keyUsername un ++
            (optWire keyPassword pw ++ optWire keyQuit (q.map quitBytes)))))) =
        keyPath ++ 61 :: v ++ 10 :: joinLines (optWire keyProtocol pr ++
          (optWire keyHost ho ++ (optWire keyUsername un ++
            (optWire keyPassword pw ++ optWire keyQuit (q.map quitBytes))))) from by
          simp [optWire, joinLines],
      decodeTail_path c v _ h0 h10, decode_protocol _ pr ho un pw q h3 t3 h4 t4 h5 t5 h6 t6]
    rfl

theorem decode_url (c : Context) (u p pr ho un pw : Option (List Nat)) (q : Option Bool)
    (h1 : optValOk u = true) (h2 : optValOk p = true)
    (h3 : optValOk pr = true) (t3 : optTextOk pr = true)
    (h4 : optValOk ho = true) (t4 : optTextOk ho = true)
    (h5 : optValOk un = true) (t5 : optTextOk un = true)
    (h6 : optValOk pw = true) (t6 : optTextOk pw = true) :
    decodeTail c (joinLines (optWire keyUrl u ++ (optWire keyPath p ++
        (optWire keyProtocol pr ++ (optWire keyHost ho ++ (optWire keyUsername un ++
          (optWire keyPassword pw ++ optWire keyQuit (q.map quitBytes)))))))) =
      Except.ok ⟨ovr u c.url, ovr p c.path, ovr pr c.protocol, ovr ho c.host,
        ovr un c.username, ovr pw c.password, ovr q c.quit⟩ := by
  rcases u with - | v
  · rw [show optWire keyUrl none ++ (optWire keyPath p ++ (optWire keyProtocol pr ++
          (optWire keyHost ho ++ (optWire keyUsername un ++
            (optWire keyPassword pw ++ optWire keyQuit (q.map quitBytes)))))) =
        optWire keyPath p ++ (optWire keyProtocol pr ++ (optWire keyHost ho ++
          (optWire keyUsername un ++
            (optWire keyPassword pw ++ optWire keyQuit (q.map quitBytes))))) from by
          simp [optWire],
      decode_path c p pr ho un pw q h2 h3 t3 h4 t4 h5 t5 h6 t6]
    rfl
  · obtain ⟨h0, h10⟩ := optValOk_some h1
    rw [show joinLines (optWire keyUrl (some v) ++ (optWire keyPath p ++
          (optWire keyProtocol pr ++ (optWire keyHost ho ++ (optWire keyUsername un ++
            (optWire keyPassword pw ++ optWire keyQuit (q.map quitBytes))))))) =
        keyUrl ++ 61 :: v ++ 10 :: joinLines (optWire keyPath p ++
          (optWire keyProtocol pr ++ (optWire keyHost ho ++ (optWire keyUsername un ++
            (optWire keyPassword pw ++ optWire keyQuit (q.map quitBytes)))))) from by
          simp [optWire, joinLines],
      decodeTail_url c v _ h0 h10, decode_path _ p pr ho un pw q h2 h3 t3 h4 t4 h5 t5 h6 t6]
    rfl

theorem quit_classify (v : List Nat) :
    (if parse_true v = true then true else !parse_false v) = quitResolve v := by
  simp only [quitResolve, parse_true, parse_false]
  cases h1 : (eqIgnoreAsciiCase v asciiYes || eqIgnoreAsciiCase v asciiOn ||
      eqIgnoreAsciiCase v asciiTrue) <;>
    cases h2 : (eqIgnoreAsciiCase v asciiNo || eqIgnoreAsciiCase v asciiOff ||
        eqIgnoreAsciiCase v asciiFalse || v.isEmpty) <;>
    simp [h1, h2]

/-! The claims. -/

/-- C1: round-trip.  For every Context whose present field values
contain no null byte and no line-feed byte, and whose text fields hold
valid UTF-8, write_to succeeds, and from_bytes on the produced bytes
returns a Context equal to the original. -/
theorem claim_c1_roundtrip (ctx : Context) (h : ctx.legal = true) :
    (Context.write_to ctx).2 = none ∧
      Context.from_bytes (Context.write_to ctx).1 = Except.ok ctx := by
  have hvals : ctx.valuesOk = true := by
    have h' := h
    simp only [Context.legal, Bool.and_eq_true] at h'
    exact h'.1.1.1.1
  have hw := write_to_wire ctx hvals
  refine ⟨by rw [hw], ?_⟩
  rw [hw]
  obtain ⟨u, p, pr, ho, un, pw, q⟩ := ctx
  simp only [Context.legal, Context.valuesOk, Bool.and_eq_true] at h
  obtain ⟨⟨⟨⟨⟨⟨⟨⟨⟨h1, h2⟩, h3⟩, h4⟩, h5⟩, h6⟩, t3⟩, t4⟩, t5⟩, t6⟩ := h
  simp only [Context.from_bytes, Context.wireLineList]
  rw [decode_url Context.default u p pr ho un pw q h1 h2 h3 t3 h4 t4 h5 t5 h6 t6]
  simp [Context.default, ovr_none]

/-- Witness for C1 at a concrete fully populated context. -/
theorem claim_c1_roundtrip_witness :
    (Context.write_to ⟨some [120], some [47, 97], some [104, 116, 116, 112],
        some [104, 111, 115, 116], some [117, 115, 101, 114], some [112, 119],
        some true⟩).2 = none ∧
      Context.from_bytes (Context.write_to ⟨some [120], some [47, 97],
        some [104, 116, 116, 112], some [104, 111, 115, 116], some [117, 115, 101, 114],
        some [112, 119], some true⟩).1 =
        Except.ok ⟨some [120], some [47, 97], some [104, 116, 116, 112],
          some [104, 111, 115, 116], some [117, 115, 101, 114], some [112, 119], some true⟩ :=
  claim_c1_roundtrip _ (by decide)

/-- C2: rejection.  The validator rejects any key or value containing a
null byte or a line feed; write_to fails on any context with such a
present value; and from_bytes fails with an encoding error on a line
whose value carries a null byte.  No truncation or escaping happens:
the operations fail instead of succeeding with altered data. -/
theorem claim_c2_rejection :
    (∀ k v : List Nat,
        (hasByte k 0 || hasByte k 10 || hasByte v 0 || hasByte v 10) = true →
        validate k v = Except.error (CtxError.encoding k v)) ∧
    (∀ ctx : Context, ctx.hasOffending = true →
        ((Context.write_to ctx).2).isSome = true) ∧
    (∀ k v : List Nat, isUtf8 k = true → hasByte k 61 = false → hasByte k 0 = false →
        hasByte k 10 = false → hasByte v 10 = false → hasByte v 0 = true →
        Context.from_bytes (k ++ 61 :: v ++ [10]) =
          Except.error (DecodeError.encoding (CtxError.encoding k v))) := by
  refine ⟨fun k v h => by simp [validate, h], fun ctx h => ?_,
    fun k v hku hk61 hk0 hk10 hv10 hv0 => ?_⟩
  · simp only [Context.hasOffending, Bool.or_eq_true] at h
    simp only [Context.write_to]
    rcases h with ((((h | h) | h) | h) | h) | h
    · exact writeQuit_keeps_err _ _ (writeOpt_keeps_err _ _ _ (writeOpt_keeps_err _ _ _
        (writeOpt_keeps_err _ _ _ (writeOpt_keeps_err _ _ _ (writeOpt_keeps_err _ _ _
          (writeOpt_offending _ _ _ h))))))
    · exact writeQuit_keeps_err _ _ (writeOpt_keeps_err _ _ _ (writeOpt_keeps_err _ _ _
        (writeOpt_keeps_err _ _ _ (writeOpt_keeps_err _ _ _ (writeOpt_offending _ _ _ h)))))
    · exact writeQuit_keeps_err _ _ (writeOpt_keeps_err _ _ _ (writeOpt_keeps_err _ _ _
        (writeOpt_keeps_err _ _ _ (writeOpt_offending _ _ _ h))))
    · exact writeQuit_keeps_err _ _ (writeOpt_keeps_err _ _ _ (writeOpt_keeps_err _ _ _
        (writeOpt_offending _ _ _ h)))
    · exact writeQuit_keeps_err _ _ (writeOpt_keeps_err _ _ _ (writeOpt_offending _ _ _ h))
    · exact writeQuit_keeps_err _ _ (writeOpt_offending _ _ _ h)
  · show decodeTail Context.default (k ++ 61 :: v ++ 10 :: []) = _
    exact decodeTail_validate_err Context.default k v [] hk61 hku hk10 hv10
      (by simp [hk0, hk10, hv0, hv10])

/-- Witness for C2: a null byte in a value is rejected by the
validator, by the encoder and by the decoder. -/
theorem claim_c2_rejection_witness :
    validate keyUrl [0] = Except.error (CtxError.encoding keyUrl [0]) ∧
    ((Context.write_to ⟨some [120], none, none, none, none, some [0], none⟩).2).isSome =
      true ∧
    Context.from_bytes (keyUrl ++ 61 :: [0] ++ [10]) =
      Except.error (DecodeError.encoding (CtxError.encoding keyUrl [0])) :=
  ⟨claim_c2_rejection.1 keyUrl [0] (by decide),
   claim_c2_rejection.2.1 ⟨some [120], none, none, none, none, some [0], none⟩ (by decide),
   claim_c2_rejection.2.2 keyUrl [0] (by decide) (by decide) (by decide) (by decide)
     (by decide) (by decide)⟩

/-- C3: boolean resolution for quit.  Decoding a quit line stores
Some of the classification of the value: true for yes, on, true read
case-insensitively; false for no, off, false or the empty value; true
for every other value. -/
theorem claim_c3_quit_resolution :
    (∀ (c : Context) (v B : List Nat), hasByte v 0 = false → hasByte v 10 = false →
        decodeTail c (keyQuit ++ 61 :: v ++ 10 :: B) =
          decodeTail { c with quit := some (quitResolve v) } B) ∧
    (∀ v : List Nat, hasByte v 0 = false → hasByte v 10 = false →
        Context.from_bytes (keyQuit ++ 61 :: v ++ [10]) =
          Except.ok { Context.default with quit := some (quitResolve v) }) := by
  constructor
  · intro c v B h0 h10
    rw [decodeTail_quitKey c v B h0 h10, quit_classify]
  · intro v h0 h10
    show decodeTail Context.default (keyQuit ++ 61 :: v ++ 10 :: []) = _
    rw [decodeTail_quitKey Context.default v [] h0 h10, decodeTail_nil, quit_classify]

/-- Witness for C3: quit values On, empty and banana decode to true,
false and true respectively. -/
theorem claim_c3_quit_resolution_witness :
    Context.from_bytes (keyQuit ++ 61 :: [79, 110] ++ [10]) =
      Except.ok { Context.default with quit := some true } ∧
    Context.from_bytes (keyQuit ++ 61 :: [] ++ [10]) =
      Except.ok { Context.default with quit := some false } ∧
    Context.from_bytes (keyQuit ++ 61 :: [98, 97, 110, 97, 110, 97] ++ [10]) =
      Except.ok { Context.default with quit := some true } :=
  ⟨(claim_c3_quit_resolution.2 [79, 110] (by decide) (by decide)).trans rfl,
   (claim_c3_quit_resolution.2 [] (by decide) (by decide)).trans rfl,
   (claim_c3_quit_resolution.2 [98, 97, 110, 97, 110, 97] (by decide) (by decide)).trans rfl⟩

/-- C4: termination.  Everything after the first empty line is ignored:
appending an empty line and arbitrary further bytes after a line-feed
terminated prefix does not change the decoding result.  The concrete
example decodes url and leaves host unset, and decoding also succeeds
on input exhaustion with no empty line and even no final line feed. -/
theorem claim_c4_stop_at_blank :
    (∀ X post : List Nat,
        Context.from_bytes (X ++ 10 :: 10 :: post) = Context.from_bytes (X ++ [10])) ∧
    Context.from_bytes [117, 114, 108, 61, 104, 116, 116, 112, 58, 47, 47, 120, 10, 10,
        104, 111, 115, 116, 61, 105, 103, 110, 111, 114, 101, 100, 10] =
      Except.ok { Context.default with url := some [104, 116, 116, 112, 58, 47, 47, 120] } ∧
    Context.from_bytes [117, 114, 108, 61, 104, 116, 116, 112, 58, 47, 47, 120] =
      Except.ok { Context.default with url := some [104, 116, 116, 112, 58, 47, 47, 120] } := by
  refine ⟨fun X post => ?_, rfl, rfl⟩
  simp only [Context.from_bytes, decodeTail]
  rw [bstrLines_split X (10 :: post),
    show bstrLines (10 :: post) = [] :: bstrLines post from by simp [bstrLines],
    takeWhile_stop (fun line => !line.isEmpty) (bstrLines (X ++ [10])) [] (bstrLines post) rfl]

/-- C5: encoder order and omission.  write_to on a context whose
present values pass validation produces exactly one line per present
field, in the fixed order url, path, protocol, host, username,
password, quit, quit serialized as true or false, and no line for any
absent field. -/
theorem claim_c5_encoder_order (ctx : Context) (h : ctx.valuesOk = true) :
    Context.write_to ctx = (joinLines ctx.wireLineList, none) :=
  write_to_wire ctx h

/-- Witness for C5 at a concrete fully populated context. -/
theorem claim_c5_encoder_order_witness :
    Context.write_to ⟨some [120], some [121], some [104], some [105], some [117],
        some [112], some false⟩ =
      (joinLines (Context.wireLineList ⟨some [120], some [121], some [104], some [105],
        some [117], some [112], some false⟩), none) :=
  claim_c5_encoder_order _ (by decide)

/-- C6: format failure.  A line with no equals sign, or whose key part
is not valid UTF-8, makes parsing fail with the format error carrying
that exact line (the Syntax variant of the source); the loop aborts at
that line regardless of what follows, and from_bytes returns only the
error. -/
theorem claim_c6_bad_format :
    (∀ line : List Nat, hasByte line 61 = false →
        parseLine line = Except.error (DecodeError.invalidFormat line)) ∧
    (∀ line k v : List Nat, splitEq line = some (k, v) → isUtf8 k = false →
        parseLine line = Except.error (DecodeError.invalidFormat line)) ∧
    (∀ (c : Context) (line : List Nat) (rest : List (List Nat)) (e : DecodeError),
        parseLine line = Except.error e → runLines c (line :: rest) = Except.error e) ∧
    (∀ line B : List Nat, line.isEmpty = false → hasByte line 61 = false →
        hasByte line 10 = false →
        Context.from_bytes (line ++ 10 :: B) =
          Except.error (DecodeError.invalidFormat line)) := by
  refine ⟨parseLine_noEq, parseLine_badKey,
    fun c line rest e hp => runLines_parse_err rest hp,
    fun line B hne h61 h10 => ?_⟩
  show decodeTail Context.default (line ++ 10 :: B) = _
  exact decodeTail_bad_line Context.default line B hne h61 h10

/-- Witness for C6: the line mal with no equals sign and a line with a
non-UTF-8 key both fail with the format error naming the line. -/
theorem claim_c6_bad_format_witness :
    parseLine [109, 97, 108] = Except.error (DecodeError.invalidFormat [109, 97, 108]) ∧
    parseLine [255, 61] = Except.error (DecodeError.invalidFormat [255, 61]) ∧
    runLines Context.default [[109, 97, 108]] =
      Except.error (DecodeError.invalidFormat [109, 97, 108]) ∧
    Context.from_bytes ([109, 97, 108] ++ 10 :: [120]) =
      Except.error (DecodeError.invalidFormat [109, 97, 108]) :=
  ⟨claim_c6_bad_format.1 [109, 97, 108] (by decide),
   claim_c6_bad_format.2.1 [255, 61] [255] [] (by decide) (by decide),
   claim_c6_bad_format.2.2.1 Context.default [109, 97, 108] [] _
     (claim_c6_bad_format.1 [109, 97, 108] (by decide)),
   claim_c6_bad_format.2.2.2 [109, 97, 108] [120] (by decide) (by decide) (by decide)⟩

/-- C7 counterexample: the value consisting of a null byte followed by
byte 255 is not valid UTF-8, yet decoding username with that value does
not fail with the ill-formed UTF-8 error the claim requires: validation
runs first and fails with the encoding error instead; the same value
under url is likewise rejected rather than accepted. -/
theorem claim_c7_counterexample :
    isUtf8 [0, 255] = false ∧
    Context.from_bytes (keyUsername ++ 61 :: [0, 255] ++ [10]) =
      Except.error (DecodeError.encoding (CtxError.encoding keyUsername [0, 255])) ∧
    Context.from_bytes (keyUrl ++ 61 :: [0, 255] ++ [10]) =
      Except.error (DecodeError.encoding (CtxError.encoding keyUrl [0, 255])) ∧
    DecodeError.encoding (CtxError.encoding keyUsername [0, 255]) ≠
      DecodeError.illformedUtf8InValue keyUsername [0, 255] :=
  ⟨rfl, rfl, rfl, by decide⟩

/-- C7 as amended: for a value that passes validation (no null byte, no
line feed) but is not valid UTF-8, decoding any of the four text keys
fails with the ill-formed UTF-8 error naming that key and value, while
url and path accept the same value and store it verbatim. -/
theorem claim_c7_text_utf8 :
    (∀ v : List Nat, hasByte v 0 = false → hasByte v 10 = false → isUtf8 v = false →
        Context.from_bytes (keyProtocol ++ 61 :: v ++ [10]) =
          Except.error (DecodeError.illformedUtf8InValue keyProtocol v) ∧
        Context.from_bytes (keyHost ++ 61 :: v ++ [10]) =
          Except.error (DecodeError.illformedUtf8InValue keyHost v) ∧
        Context.from_bytes (keyUsername ++ 61 :: v ++ [10]) =
          Except.error (DecodeError.illformedUtf8InValue keyUsername v) ∧
        Context.from_bytes (keyPassword ++ 61 :: v ++ [10]) =
          Except.error (DecodeError.illformedUtf8InValue keyPassword v)) ∧
    (∀ v : List Nat, hasByte v 0 = false → hasByte v 10 = false →
        Context.from_bytes (keyUrl ++ 61 :: v ++ [10]) =
          Except.ok { Context.default with url := some v } ∧
        Context.from_bytes (keyPath ++ 61 :: v ++ [10]) =
          Except.ok { Context.default with path := some v }) := by
  constructor
  · intro v h0 h10 hu
    refine ⟨?_, ?_, ?_, ?_⟩
    · show decodeTail Context.default (keyProtocol ++ 61 :: v ++ 10 :: []) = _
      exact decodeTail_protocol_err Context.default v [] h0 h10 hu
    · show decodeTail Context.default (keyHost ++ 61 :: v ++ 10 :: []) = _
      exact decodeTail_host_err Context.default v [] h0 h10 hu
    · show decodeTail Context.default (keyUsername ++ 61 :: v ++ 10 :: []) = _
      exact decodeTail_username_err Context.default v [] h0 h10 hu
    · show decodeTail Context.default (keyPassword ++ 61 :: v ++ 10 :: []) = _
      exact decodeTail_password_err Context.default v [] h0 h10 hu
  · intro v h0 h10
    constructor
    · show decodeTail Context.default (keyUrl ++ 61 :: v ++ 10 :: []) = _
      rw [decodeTail_url Context.default v [] h0 h10, decodeTail_nil]
    · show decodeTail Context.default (keyPath ++ 61 :: v ++ 10 :: []) = _
      rw [decodeTail_path Context.default v [] h0 h10, decodeTail_nil]

/-- Witness for the amended C7 at the single byte 255, which is not
valid UTF-8. -/
theorem claim_c7_text_utf8_witness :
    Context.from_bytes (keyUsername ++ 61 :: [255] ++ [10]) =
      Except.error (DecodeError.illformedUtf8InValue keyUsername [255]) ∧
    Context.from_bytes (keyUrl ++ 61 :: [255] ++ [10]) =
      Except.ok { Context.default with url := some [255] } :=
  ⟨(claim_c7_text_utf8.1 [255] (by decide) (by decide) (by decide)).2.2.1,
   (claim_c7_text_utf8.2 [255] (by decide) (by decide)).1⟩

/-- C8: unknown-key tolerance.  A well-formed line with an
unrecognized key is validated and then ignored: the dispatch keeps the
context unchanged, the loop proceeds with the remaining lines, and at
the whole-input level the line can be dropped without affecting the
result. -/
theorem claim_c8_unknown_key (k v : List Nat) (hrec : k ∉ recognizedKeys)
    (hku : isUtf8 k = true) (hk61 : hasByte k 61 = false)
    (hk0 : hasByte k 0 = false) (hk10 : hasByte k 10 = false)
    (hv0 : hasByte v 0 = false) (hv10 : hasByte v 10 = false) :
    (∀ c : Context, applyLine c k v = Except.ok c) ∧
    (∀ (c : Context) (rest : List (List Nat)),
        runLines c ((k ++ 61 :: v) :: rest) = runLines c rest) ∧
    (∀ B : List Nat, Context.from_bytes (k ++ 61 :: v ++ 10 :: B) =
        Context.from_bytes B) := by
  refine ⟨fun c => applyLine_unknown c k v hrec, fun c rest => ?_, fun B => ?_⟩
  · exact runLines_step rest (parseLine_ok k v hk61 hku hk0 hk10 hv0 hv10)
      (applyLine_unknown c k v hrec)
  · show decodeTail Context.default (k ++ 61 :: v ++ 10 :: B) = _
    exact decodeTail_unknown Context.default k v B hrec hku hk61 hk0 hk10 hv0 hv10

/-- Witness for C8: the line foo=bar is ignored and decoding continues
with the following url line. -/
theorem claim_c8_unknown_key_witness :
    Context.from_bytes ([102, 111, 111] ++ 61 :: [98, 97, 114] ++ 10 ::
        (keyUrl ++ 61 :: [120] ++ [10])) =
      Context.from_bytes (keyUrl ++ 61 :: [120] ++ [10]) :=
  (claim_c8_unknown_key [102, 111, 111] [98, 97, 114] (by decide) (by decide) (by decide)
    (by decide) (by decide) (by decide) (by decide)).2.2 _

/-- C9: unknown keys are still validated before being ignored.  A line
whose key is unrecognized but whose key or value contains a null byte
makes from_bytes fail with the encoding error rather than silently
skipping the line. -/
theorem claim_c9_unknown_validated (k v : List Nat) (hrec : k ∉ recognizedKeys)
    (hku : isUtf8 k = true) (hk61 : hasByte k 61 = false) (hk10 : hasByte k 10 = false)
    (hv10 : hasByte v 10 = false) (h0 : (hasByte k 0 || hasByte v 0) = true) :
    ∀ B : List Nat, Context.from_bytes (k ++ 61 :: v ++ 10 :: B) =
      Except.error (DecodeError.encoding (CtxError.encoding k v)) := by
  intro B
  show decodeTail Context.default (k ++ 61 :: v ++ 10 :: B) = _
  refine decodeTail_validate_err Context.default k v B hk61 hku hk10 hv10 ?_
  rcases (by simpa using h0 : hasByte k 0 = true ∨ hasByte v 0 = true) with h | h <;>
    simp [h]

/-- Witness for C9: the line foo=NUL fails with the encoding error. -/
theorem claim_c9_unknown_validated_witness :
    Context.from_bytes ([102, 111, 111] ++ 61 :: [0] ++ 10 :: []) =
      Except.error (DecodeError.encoding (CtxError.encoding [102, 111, 111] [0])) :=
  claim_c9_unknown_validated [102, 111, 111] [0] (by decide) (by decide) (by decide)
    (by decide) (by decide) (by decide) []

/-- C10: encoding is not atomic with respect to the sink.  When the
password value is invalid and all earlier present fields are valid, the
sink already holds exactly the wire lines of those earlier fields when
write_to reports the error (and the quit line is never written); and a
writeOpt step only ever appends to the sink, never rewinds it. -/
theorem claim_c10_partial_write (u p pr ho un : Option (List Nat)) (q : Option Bool)
    (pwv : List Nat)
    (h1 : optValOk u = true) (h2 : optValOk p = true) (h3 : optValOk pr = true)
    (h4 : optValOk ho = true) (h5 : optValOk un = true)
    (hpw : (hasByte pwv 0 || hasByte pwv 10) = true) :
    (Context.write_to ⟨u, p, pr, ho, un, some pwv, q⟩ =
        (joinLines (Context.wireLineList ⟨u, p, pr, ho, un, none, none⟩),
          some (CtxError.encoding keyPassword pwv))) ∧
    (∀ (st : List Nat × Option CtxError) (k : List Nat) (vo : Option (List Nat)),
        ∃ t : List Nat, (writeOpt st k vo).1 = st.1 ++ t) := by
  constructor
  · simp only [Context.write_to]
    rw [writeOpt_ok [] keyUrl u (by decide) (by decide) h1,
        writeOpt_ok _ keyPath p (by decide) (by decide) h2,
        writeOpt_ok _ keyProtocol pr (by decide) (by decide) h3,
        writeOpt_ok _ keyHost ho (by decide) (by decide) h4,
        writeOpt_ok _ keyUsername un (by decide) (by decide) h5,
        writeOpt_some_err _ keyPassword pwv
          (by rcases (by simpa using hpw : hasByte pwv 0 = true ∨ hasByte pwv 10 = true)
                with h | h <;> simp [h]),
        writeQuit_err]
    simp [Context.wireLineList, joinLines_append, optWire, joinLines]
  · intro st k vo
    rcases st with ⟨out, err⟩
    rcases err with - | e
    · rcases vo with - | v
      · exact ⟨[], by simp [writeOpt]⟩
      · rcases hval : validate k v with e2 | u2
        · exact ⟨[], by simp [writeOpt, hval]⟩
        · exact ⟨k ++ 61 :: v ++ [10], by simp [writeOpt, hval]⟩
    · exact ⟨[], by simp [writeOpt]⟩

/-- Witness for C10: with url present and valid and password holding a
null byte, the sink contains exactly the url line when write_to fails;
and a concrete writeOpt call appends to a nonempty sink. -/
theorem claim_c10_partial_write_witness :
    Context.write_to ⟨some [120], none, none, none, none, some [0], none⟩ =
      (joinLines (Context.wireLineList ⟨some [120], none, none, none, none, none, none⟩),
        some (CtxError.encoding keyPassword [0])) ∧
    ∃ t : List Nat,
      (writeOpt (([49], none) : List Nat × Option CtxError) keyUrl (some [50])).1 =
        [49] ++ t := by
  have H := claim_c10_partial_write (some [120]) none none none none none [0]
    (by decide) (by decide) (by decide) (by decide) (by decide) (by decide)
  exact ⟨H.1, H.2 ([49], none) keyUrl (some [50])⟩
